import Mathlib

/-!
Verification development for the Council review orchestration layer.

Shallow embedding of the concurrency-bounded dispatcher (`commands/review.py`),
the retry/backoff controller (`core/review_executor.py`), the streaming event
router (`ui/streaming.py`), the cache gateway usage and per-job error handling
(`commands/review.py`), and the debug-writer registry lifecycle
(`core/review_executor.py`).
-/

namespace Council

/-! ## String containment (Python `needle in haystack`) -/

/-- Substring test on character lists: `hasSub needle hay` is true when
`needle` occurs contiguously inside `hay`.  This embeds Python's
`needle in haystack` operator on strings. -/
def hasSub (needle : List Char) : List Char → Bool
  | [] => needle.isEmpty
  | c :: t => needle.isPrefixOf (c :: t) || hasSub needle t

/-- String-level wrapper for `hasSub`: Python `needle in hay`. -/
def strContains (hay needle : String) : Bool :=
  hasSub needle.data hay.data

/-- Lowercase rendering of a string (Python `str.lower()` on the ASCII
range), mapped characterwise over the string's characters. -/
def strLower (s : String) : String :=
  String.mk (s.data.map Char.toLower)

/-- Transient (rate-limit) error classification from
`core/review_executor.py` lines 207-214: the lowercase rendering of the
error message is tested for each of the five substring markers. -/
def is_rate_limit (msg : String) : Bool :=
  let error_str := strLower msg
  strContains error_str "429"
    || strContains error_str "rate limit"
    || strContains error_str "ratelimiterror"
    || strContains error_str "throttling"
    || strContains error_str "too many tokens"

/-! ## Retry/backoff controller (`run_agent_review`, lines 66-242)

The agent attempt is abstracted by a function `f : Nat → Except String R`
giving the outcome of the 0-indexed attempt `i` (`.ok r` when the attempt
body returns a result, `.error e` when it raises an exception whose string
rendering is `e`).  The loop body, classification, backoff-delay computation
and re-raise structure are translated line by line. -/

/-- Retry bound from `core/review_executor.py` line 66. -/
def max_retries : Nat := 3

/-- Backoff base delay from `core/review_executor.py` line 67
(5.0 seconds, taken as 5 abstract time units). -/
def base_delay : Nat := 5

/-- Result of the retry loop: a returned review, a re-raised error, or the
fall-through `RuntimeError("Failed to get review result after retries")`
after the `for` loop (line 242). -/
inductive LoopOutcome (R : Type) where
  | success (r : R)
  | failure (e : String)
  | fellThrough
  deriving DecidableEq

/-- Observable facts about one run of the retry loop: its outcome, the
backoff delays slept (in order), and the number of attempts made. -/
structure LoopRun (R : Type) where
  outcome : LoopOutcome R
  delays : List Nat
  attempts : Nat
  deriving DecidableEq

/-- One pass of the `for attempt in range(max_retries)` loop of
`run_agent_review`: `n` is the number of loop iterations remaining and `i`
the current value of `attempt` (callers maintain `n + i = max_retries`).
On `.ok` the result is returned; on `.error e` the code retries after
`base_delay * 2 ^ i` exactly when `is_rate_limit e` and
`attempt < max_retries - 1` (line 220), and re-raises otherwise. -/
def reviewLoopAux {R : Type} (f : Nat → Except String R) : Nat → Nat → LoopRun R
  | 0, _ => ⟨.fellThrough, [], 0⟩
  | n + 1, i =>
    match f i with
    | .ok r => ⟨.success r, [], 1⟩
    | .error e =>
      if is_rate_limit e && decide (i < max_retries - 1) then
        let rest := reviewLoopAux f n (i + 1)
        ⟨rest.outcome, base_delay * 2 ^ i :: rest.delays, rest.attempts + 1⟩
      else
        ⟨.failure e, [], 1⟩

/-- The retry loop of `run_agent_review`, started at attempt 0 with
`max_retries` iterations available. -/
def run_agent_review_loop {R : Type} (f : Nat → Except String R) : LoopRun R :=
  reviewLoopAux f max_retries 0

/-- Whether the loop terminated by returning or raising (rather than by
falling out of the `for` loop into the trailing
`RuntimeError("Failed to get review result after retries")`). -/
def LoopOutcome.terminatedInLoop {R : Type} : LoopOutcome R → Bool
  | .fellThrough => false
  | _ => true

/-! ## Concurrency-bounded dispatcher (`_review`, lines 398-431)

The concurrency limit computed at lines 404-409 and the semaphore
discipline of `_review_single_file` (line 205, `async with semaphore`). -/

/-- Concurrency limit from `commands/review.py` lines 404-409:
`len(files) <= 5` gives the file count itself, otherwise
`min(settings.max_concurrent_reviews, max(3, len(files) // 2))`. -/
def concurrency_limit (n max_concurrent_reviews : Nat) : Nat :=
  if n ≤ 5 then n
  else min max_concurrent_reviews (max 3 (n / 2))

/-- Modelled from the spec's wording of the limit (for refinement
comparison with `concurrency_limit`): "if N ≤ 5, K = N; otherwise
K = max(3, min(configured_max, N / 2))". -/
def spec_concurrency_limit (n configured_max : Nat) : Nat :=
  if n ≤ 5 then n
  else max 3 (min configured_max (n / 2))

/-- Dispatcher slot state: `avail` free semaphore slots, `inFlight` jobs
currently past the `async with semaphore` acquisition point. -/
structure DispatchState where
  avail : Nat
  inFlight : Nat
  deriving DecidableEq

/-- An interleaving step of the batch: some job acquires a slot, or some
job releases its slot on concluding (success, failure or cancellation). -/
inductive SlotOp where
  | acquire
  | release
  deriving DecidableEq

/-- Semaphore transition: `acquire` blocks (no transition) when no slot is
free; `release` returns a slot.  Releases only occur for jobs in flight. -/
def slotStep (s : DispatchState) : SlotOp → Option DispatchState
  | .acquire =>
    if s.avail = 0 then none
    else some ⟨s.avail - 1, s.inFlight + 1⟩
  | .release =>
    if s.inFlight = 0 then none
    else some ⟨s.avail + 1, s.inFlight - 1⟩

/-- Run an interleaving of slot operations from a starting state. -/
def slotRun : List SlotOp → DispatchState → Option DispatchState
  | [], s => some s
  | op :: ops, s =>
    match slotStep s op with
    | none => none
    | some s2 => slotRun ops s2

/-- Initial dispatcher state: `asyncio.Semaphore(concurrency_limit)` with
no job yet past the acquisition point (line 410). -/
def initDispatch (k : Nat) : DispatchState := ⟨k, 0⟩

/-! ## Batch result collection (`_review`, lines 416-431)

`asyncio.gather(*tasks, return_exceptions=True)` yields one item per task
in submission order; each item is either a raised exception object, `None`
(the job was dropped by its error handler), or the `(file_path, result)`
pair returned by `_review_single_file`.  The loop at lines 426-431 skips
exceptions and `None` and appends the rest to `all_results`. -/

/-- Outcome of one gathered task for a file, as seen by the result loop. -/
inductive GatherOutcome (R : Type) where
  | exc (msg : String)
  | dropped
  | ok (r : R)
  deriving DecidableEq

/-- The result-collection loop of `_review` (lines 425-431): fold over the
gathered items in submission order, appending only `(file, result)` pairs. -/
def collectResults {F R : Type} (items : List (F × GatherOutcome R)) : List (F × R) :=
  items.foldl
    (fun all_results item =>
      match item.2 with
      | .ok r => all_results ++ [(item.1, r)]
      | _ => all_results)
    []

/-! ## Per-job error handling (`_review_single_file`, lines 324-396)

The `except` clauses at the end of `_review_single_file`: a
`FileNotFoundError` drops the job; a `RuntimeError` whose message matches
the missing-provider-credentials test calls `sys.exit(1)` and aborts the
whole batch, any other `RuntimeError` drops the job; any other exception
drops the job.  (The trailing `except (ValueError, TypeError, KeyError)`
clause is unreachable, shadowed by `except Exception`.) -/

/-- Errors that can escape the body of `_review_single_file`. -/
inductive JobError where
  | fileNotFound (msg : String)
  | runtimeError (msg : String)
  | otherError (msg : String)
  deriving DecidableEq

/-- The missing-provider-credentials test of line 333:
`"No API keys configured" in error_msg or "API key" in error_msg.lower()`. -/
def isConfigError (error_msg : String) : Bool :=
  strContains error_msg "No API keys configured"
    || strContains (strLower error_msg) "API key"

/-- What the error handlers of `_review_single_file` do with a job's
outcome: return the result, drop the job (`return None`), or abort the
whole batch (`sys.exit(1)`). -/
inductive Handled (R : Type) where
  | success (r : R)
  | dropped
  | abort
  deriving DecidableEq

/-- The `except` cascade of `_review_single_file` (lines 324-396) applied
to the job body's outcome. -/
def handleJobOutcome {R : Type} : Except JobError R → Handled R
  | .ok r => .success r
  | .error (.fileNotFound _) => .dropped
  | .error (.runtimeError m) => if isConfigError m then .abort else .dropped
  | .error (.otherError _) => .dropped

/-- The batch over its files: a `sys.exit(1)` from any job's handler
aborts the whole batch (distinguished exit signal, modelled as
`.error ()`), otherwise successes are kept in submission order and dropped
jobs are omitted. -/
def runBatch {F R : Type} : List F → (F → Except JobError R) → Except Unit (List (F × R))
  | [], _ => .ok []
  | f :: fs, outcome =>
    match handleJobOutcome (outcome f) with
    | .abort => .error ()
    | .success r =>
      match runBatch fs outcome with
      | .ok rest => .ok ((f, r) :: rest)
      | .error u => .error u
    | .dropped => runBatch fs outcome

/-! ## Cache gateway usage (`_review_single_file`, lines 257-284)

`cached_data` is fetched only when `not no_cache and settings.enable_cache`;
a hit short-circuits the agent call, otherwise the agent runs and a put is
performed (under the same enablement test) only after the fresh result. -/

/-- Inputs to the cache region of `_review_single_file`: the `--no-cache`
flag, the `settings.enable_cache` feature flag, the stored value returned
by `get_cached_review` (when consulted), and what the agent invocation
would produce if made. -/
structure CacheInput (R : Type) where
  no_cache : Bool
  enable_cache : Bool
  cached : Option R
  agentOutcome : Except String R

/-- Observable effects of the cache region: the review result (or the
agent error that propagates), whether `run_agent_review` was invoked, and
whether `cache_review` (the put) was called. -/
structure CacheEffects (R : Type) where
  result : Except String R
  agentInvoked : Bool
  cachePut : Bool

/-- Caching enablement test, appearing at lines 259 and 278:
`not no_cache and settings.enable_cache`. -/
def cacheEnabled {R : Type} (inp : CacheInput R) : Bool :=
  !inp.no_cache && inp.enable_cache

/-- The cache region of `_review_single_file` (lines 257-284): consult the
cache only when enabled; on a hit use the stored result, otherwise run the
agent and, on success with caching enabled, put the fresh result. -/
def reviewWithCache {R : Type} (inp : CacheInput R) : CacheEffects R :=
  match (if cacheEnabled inp then inp.cached else none) with
  | some cached_result => ⟨.ok cached_result, false, false⟩
  | none =>
    match inp.agentOutcome with
    | .ok review_result => ⟨.ok review_result, true, cacheEnabled inp⟩
    | .error e => ⟨.error e, true, false⟩

/-! ## Debug-writer registry lifecycle (`run_agent_review`, lines 56-236)

`councilor._debug_writers[deps.file_path] = debug_writer` is executed once
before the retry loop (lines 59-60).  `councilor._debug_writers.pop(...)`
is executed on the success path (lines 194-195) and on the re-raise path
(lines 233-234).  The `except asyncio.CancelledError: raise` clause
(lines 202-204) re-raises without popping, and the retry path pops
nothing. -/

/-- Outcome of one attempt body for the registry model: a returned result,
a raised exception rendered as a string, or an `asyncio.CancelledError`. -/
inductive AttemptResult (R : Type) where
  | ok (r : R)
  | err (e : String)
  | cancelled
  deriving DecidableEq

/-- How `run_agent_review` concludes, for the registry model. -/
inductive RegOutcome (R : Type) where
  | success (r : R)
  | raised (e : String)
  | cancelled
  | fellThrough
  deriving DecidableEq

/-- Observable registry facts about one run of `run_agent_review`: the
conclusion, how many times the job's key was popped from
`councilor._debug_writers`, and whether the key is still registered when
the function exits (it was registered once before the loop). -/
structure RegRun (R : Type) where
  outcome : RegOutcome R
  unregisters : Nat
  registered : Bool
  deriving DecidableEq

/-- Registry bookkeeping of the retry loop: `n` iterations remain, `i` is
the current attempt.  Success pops once and returns; `CancelledError`
re-raises without a pop; a transient error with attempts remaining retries
without a pop; any other error path pops once and re-raises. -/
def regLoopAux {R : Type} (f : Nat → AttemptResult R) : Nat → Nat → RegRun R
  | 0, _ => ⟨.fellThrough, 0, true⟩
  | n + 1, i =>
    match f i with
    | .ok r => ⟨.success r, 1, false⟩
    | .cancelled => ⟨.cancelled, 0, true⟩
    | .err e =>
      if is_rate_limit e && decide (i < max_retries - 1) then
        regLoopAux f n (i + 1)
      else
        ⟨.raised e, 1, false⟩

/-- Registry lifecycle of one full `run_agent_review` call: the writer is
registered before the loop (so the state starts registered), then the loop
runs from attempt 0. -/
def run_agent_review_registry {R : Type} (f : Nat → AttemptResult R) : RegRun R :=
  regLoopAux f max_retries 0

/-! ## Background spinner-task lifecycle (`run_agent_review` lines 69-239
and `cleanup_spinner_task`, `ui/streaming.py` lines 119-125)

Per attempt: a spinner task is created at line 75 only when the spinner is
enabled.  If streaming produces a truthy partial result, the task is
cancelled mid-stream and the local variable is set to `None`
(lines 89-91); from then on every cleanup call of that attempt — the
`except` handler's call at line 217 and the `finally` call at line 239 —
receives `None` and never awaits, whatever the exit (success, retry,
re-raise, or cancellation).  Only when no truthy partial was received does
the live task reach `cleanup_spinner_task`, which cancels it and awaits it
under `asyncio.wait_for(..., timeout=1.0)`. -/

/-- How one attempt of the retry loop exits, for the spinner model. -/
inductive AttemptExit where
  | success
  | errRetry
  | errRaise
  | cancelledExit
  deriving DecidableEq

/-- Observable spinner-task facts for one attempt: whether a task was
started, whether it was cancelled before the attempt exited, and whether
it was awaited (with the bounded `wait_for` timeout) before the attempt
exited. -/
structure SpinnerTrace where
  started : Bool
  cancelled : Bool
  awaited : Bool
  deriving DecidableEq

/-- Spinner-task lifecycle of one attempt of `run_agent_review`.  The task
is started only if `spinner.enabled` (line 74).  `partialReceived` records
whether a truthy streamed partial result arrived before the attempt
exited: if it did, the task was cancelled at line 90 and the variable
nulled at line 91, so every subsequent `cleanup_spinner_task` call of
this attempt receives `None` and skips the await — also when the exit is
a later error, retry or cancellation (e.g. `get_output()` failing at
line 97).  If no truthy partial arrived, the live task reaches
`cleanup_spinner_task` on every exit path, which cancels and awaits it
with the bounded timeout. -/
def attemptSpinner (enabled partialReceived : Bool) (exitPath : AttemptExit) : SpinnerTrace :=
  if !enabled then ⟨false, false, false⟩
  else if partialReceived then ⟨true, true, false⟩
  else
    match exitPath with
    | .success => ⟨true, true, true⟩
    | .errRetry => ⟨true, true, true⟩
    | .errRaise => ⟨true, true, true⟩
    | .cancelledExit => ⟨true, true, true⟩

/-! ## Streaming event router (`ui/streaming.py`, lines 22-116)

`create_event_stream_handler` closes over `last_status` (initially `""`)
and `tool_calls_tracked` (initially empty).  Each event may derive a
status; the status is shown only when it differs from `last_status`, which
is then updated.  `FunctionToolResultEvent` derives no status. -/

/-- One event of the job's live event sequence, as discriminated by the
`isinstance` chain of `event_stream_handler`.  `partStart` carries the
tool name when `event.part` has one; `partDelta` carries whether the delta
is a `TextPartDelta` and whether the spinner loop is actively rendering
(`spinner.active`) when the event arrives; `toolCallEv` carries the tool
name and the optional `tool_call_id`; `toolResultEv` carries the
`tool_call_id` of the completed call. -/
inductive StreamEvent where
  | partStart (toolName : Option String)
  | partDelta (isTextDelta : Bool) (spinnerActive : Bool)
  | toolCallEv (toolName : String) (toolCallId : Option String)
  | toolResultEv (toolCallId : String)
  | finalResult
  deriving DecidableEq

/-- Closure state of `event_stream_handler`: `last_status` and the
`tool_calls_tracked` map (call id to tool name, most recent first). -/
structure HandlerState where
  last_status : String
  tool_calls_tracked : List (String × String)
  deriving DecidableEq

/-- Initial closure state of `create_event_stream_handler` (lines 35-36):
`last_status = ""` and an empty tracking map. -/
def initHandlerState : HandlerState := ⟨"", []⟩

/-- The emit-if-changed guard used at every status-derivation site
(`if new_status != last_status: spinner.show_status(new_status);
last_status = new_status`).  Returns the updated state and the status
emitted to the sink, if any. -/
def emitIfNew (st : HandlerState) (new_status : String) : HandlerState × Option String :=
  if new_status = st.last_status then (st, none)
  else ({ st with last_status := new_status }, some new_status)

/-- One iteration of the `async for event in event_stream` loop of
`event_stream_handler` (lines 50-114), returning the updated closure
state and the status emitted for this event (if any). -/
def handleEvent (st : HandlerState) : StreamEvent → HandlerState × Option String
  | .partStart toolName =>
    match toolName with
    | some name => emitIfNew st ("Calling tool: " ++ name ++ "...")
    | none => emitIfNew st "Generating review..."
  | .partDelta isTextDelta spinnerActive =>
    if isTextDelta && !spinnerActive then emitIfNew st "Writing review..."
    else (st, none)
  | .toolCallEv toolName toolCallId =>
    let st2 :=
      match toolCallId with
      | some callId => { st with tool_calls_tracked := (callId, toolName) :: st.tool_calls_tracked }
      | none => st
    emitIfNew st2 ("Executing: " ++ toolName ++ "...")
  | .toolResultEv _ => (st, none)
  | .finalResult => emitIfNew st "Finalizing review..."

/-- Run the handler over a whole event sequence, collecting the statuses
emitted to the sink in order. -/
def runHandler (st : HandlerState) : List StreamEvent → HandlerState × List String
  | [] => (st, [])
  | e :: es =>
    let step := handleEvent st e
    let rest := runHandler step.1 es
    (rest.1, step.2.toList ++ rest.2)

/-! ## Helper lemmas -/

theorem reviewLoopAux_retry {R : Type} (f : Nat → Except String R) (n i : Nat)
    (e : String) (h : f i = .error e)
    (hc : (is_rate_limit e && decide (i < max_retries - 1)) = true) :
    reviewLoopAux f (n + 1) i =
      ⟨(reviewLoopAux f n (i + 1)).outcome,
        base_delay * 2 ^ i :: (reviewLoopAux f n (i + 1)).delays,
        (reviewLoopAux f n (i + 1)).attempts + 1⟩ := by
  simp [reviewLoopAux, h, hc]

theorem reviewLoopAux_noretry {R : Type} (f : Nat → Except String R) (n i : Nat)
    (e : String) (h : f i = .error e)
    (hc : (is_rate_limit e && decide (i < max_retries - 1)) = false) :
    reviewLoopAux f (n + 1) i = ⟨.failure e, [], 1⟩ := by
  simp [reviewLoopAux, h, hc]

theorem reviewLoopAux_attempts_pos {R : Type} (f : Nat → Except String R) (n i : Nat) :
    1 ≤ (reviewLoopAux f (n + 1) i).attempts := by
  cases hfi : f i with
  | ok r => simp [reviewLoopAux, hfi]
  | error e =>
    by_cases hc : (is_rate_limit e && decide (i < max_retries - 1)) = true
    · rw [reviewLoopAux_retry f n i e hfi hc]
      exact Nat.le_add_left 1 _
    · rw [reviewLoopAux_noretry f n i e hfi (by simpa using hc)]

theorem reviewLoopAux_bounds {R : Type} (f : Nat → Except String R) :
    ∀ n i, (reviewLoopAux f n i).attempts ≤ n ∧
      ∀ j (hj : j < (reviewLoopAux f n i).delays.length),
        (reviewLoopAux f n i).delays.get ⟨j, hj⟩ = base_delay * 2 ^ (i + j) := by
  intro n
  induction n with
  | zero =>
    intro i
    refine ⟨Nat.le_refl 0, ?_⟩
    intro j hj
    simp [reviewLoopAux] at hj
  | succ n ih =>
    intro i
    cases hfi : f i with
    | ok r =>
      refine ⟨?_, ?_⟩
      · simp [reviewLoopAux, hfi]
      · intro j hj
        simp [reviewLoopAux, hfi] at hj
    | error e =>
      by_cases hc : (is_rate_limit e && decide (i < max_retries - 1)) = true
      · rw [reviewLoopAux_retry f n i e hfi hc]
        refine ⟨Nat.succ_le_succ (ih (i + 1)).1, ?_⟩
        intro j hj
        cases j with
        | zero => simp
        | succ j =>
          have hj2 : j < (reviewLoopAux f n (i + 1)).delays.length := by
            simpa using hj
          have hIH := (ih (i + 1)).2 j hj2
          rw [show i + 1 + j = i + (j + 1) by omega] at hIH
          simpa using hIH
      · rw [reviewLoopAux_noretry f n i e hfi (by simpa using hc)]
        refine ⟨Nat.succ_le_succ (Nat.zero_le n), ?_⟩
        intro j hj
        simp at hj

theorem reviewLoopAux_terminates {R : Type} (f : Nat → Except String R) :
    ∀ n i, 1 ≤ n → n + i = max_retries →
      (reviewLoopAux f n i).outcome.terminatedInLoop = true := by
  intro n
  induction n with
  | zero => intro i h; omega
  | succ n ih =>
    intro i _ hsum
    cases hfi : f i with
    | ok r => simp [reviewLoopAux, hfi, LoopOutcome.terminatedInLoop]
    | error e =>
      by_cases hc : (is_rate_limit e && decide (i < max_retries - 1)) = true
      · rw [reviewLoopAux_retry f n i e hfi hc]
        have hi : i < max_retries - 1 := by
          have := hc
          simp [Bool.and_eq_true] at this
          exact this.2
        have hn : 1 ≤ n := by
          simp [max_retries] at hi hsum
          omega
        exact ih (i + 1) hn (by omega)
      · rw [reviewLoopAux_noretry f n i e hfi (by simpa using hc)]
        simp [LoopOutcome.terminatedInLoop]

theorem regLoopAux_spec {R : Type} (f : Nat → AttemptResult R) :
    ∀ n i, 1 ≤ n → n + i = max_retries →
      ((regLoopAux f n i).outcome = .cancelled →
        (regLoopAux f n i).unregisters = 0 ∧ (regLoopAux f n i).registered = true) ∧
      ((regLoopAux f n i).outcome ≠ .cancelled →
        (regLoopAux f n i).unregisters = 1 ∧ (regLoopAux f n i).registered = false) := by
  intro n
  induction n with
  | zero => intro i h; omega
  | succ n ih =>
    intro i _ hsum
    cases hfi : f i with
    | ok r => simp [regLoopAux, hfi]
    | cancelled => simp [regLoopAux, hfi]
    | err e =>
      by_cases hc : (is_rate_limit e && decide (i < max_retries - 1)) = true
      · have hrec : regLoopAux f (n + 1) i = regLoopAux f n (i + 1) := by
          simp [regLoopAux, hfi, hc]
        rw [hrec]
        have hi : i < max_retries - 1 := by
          have := hc
          simp [Bool.and_eq_true] at this
          exact this.2
        have hn : 1 ≤ n := by
          simp [max_retries] at hi hsum
          omega
        exact ih (i + 1) hn (by omega)
      · simp [regLoopAux, hfi, Bool.eq_false_iff.2 hc]

theorem slotStep_sum (s s2 : DispatchState) (op : SlotOp)
    (h : slotStep s op = some s2) :
    s2.avail + s2.inFlight = s.avail + s.inFlight := by
  cases op with
  | acquire =>
    by_cases hz : s.avail = 0
    · simp [slotStep, hz] at h
    · simp [slotStep, hz] at h
      rw [← h]
      simp
      omega
  | release =>
    by_cases hz : s.inFlight = 0
    · simp [slotStep, hz] at h
    · simp [slotStep, hz] at h
      rw [← h]
      simp
      omega

theorem slotRun_sum (ops : List SlotOp) :
    ∀ s0 s : DispatchState, slotRun ops s0 = some s →
      s.avail + s.inFlight = s0.avail + s0.inFlight := by
  induction ops with
  | nil =>
    intro s0 s h
    simp [slotRun] at h
    rw [← h]
  | cons op ops ih =>
    intro s0 s h
    cases hstep : slotStep s0 op with
    | none => simp [slotRun, hstep] at h
    | some s2 =>
      simp [slotRun, hstep] at h
      rw [ih s2 s h]
      exact slotStep_sum s0 s2 op hstep

theorem collectResults_foldl {F R : Type} (items : List (F × GatherOutcome R)) :
    ∀ acc : List (F × R),
      items.foldl
          (fun all_results item =>
            match item.2 with
            | .ok r => all_results ++ [(item.1, r)]
            | _ => all_results)
          acc =
        acc ++ items.filterMap fun item =>
          match item.2 with
          | .ok r => some (item.1, r)
          | _ => none := by
  induction items with
  | nil => intro acc; simp
  | cons item rest ih =>
    intro acc
    obtain ⟨fp, o⟩ := item
    cases o <;> simp [List.filterMap_cons, ih, List.append_assoc]

theorem emitIfNew_some (st : HandlerState) (ns s : String)
    (h : (emitIfNew st ns).2 = some s) :
    s ≠ st.last_status ∧ (emitIfNew st ns).1.last_status = s := by
  by_cases hc : ns = st.last_status
  · simp [emitIfNew, hc] at h
  · simp [emitIfNew, hc] at h ⊢
    subst h
    exact ⟨hc, rfl⟩

theorem emitIfNew_none (st : HandlerState) (ns : String)
    (h : (emitIfNew st ns).2 = none) :
    (emitIfNew st ns).1 = st := by
  by_cases hc : ns = st.last_status
  · simp [emitIfNew, hc]
  · simp [emitIfNew, hc] at h

theorem handleEvent_some (st : HandlerState) (e : StreamEvent) (s : String)
    (h : (handleEvent st e).2 = some s) :
    s ≠ st.last_status ∧ (handleEvent st e).1.last_status = s := by
  cases e with
  | partStart tn =>
    cases tn with
    | some name => exact emitIfNew_some st _ s h
    | none => exact emitIfNew_some st _ s h
  | partDelta itd sa =>
    by_cases hc : (itd && !sa) = true
    · rw [show handleEvent st (.partDelta itd sa) = emitIfNew st "Writing review..." by
        simp [handleEvent, hc]] at h ⊢
      exact emitIfNew_some st _ s h
    · simp [handleEvent, Bool.eq_false_iff.2 hc] at h
  | toolCallEv name cid =>
    cases cid with
    | some callId =>
      exact emitIfNew_some { st with tool_calls_tracked := (callId, name) :: st.tool_calls_tracked } _ s h
    | none => exact emitIfNew_some st _ s h
  | toolResultEv cid => simp [handleEvent] at h
  | finalResult => exact emitIfNew_some st _ s h

theorem handleEvent_none (st : HandlerState) (e : StreamEvent)
    (h : (handleEvent st e).2 = none) :
    (handleEvent st e).1.last_status = st.last_status := by
  cases e with
  | partStart tn =>
    cases tn with
    | some name => exact congrArg HandlerState.last_status (emitIfNew_none st _ h)
    | none => exact congrArg HandlerState.last_status (emitIfNew_none st _ h)
  | partDelta itd sa =>
    by_cases hc : (itd && !sa) = true
    · rw [show handleEvent st (.partDelta itd sa) = emitIfNew st "Writing review..." by
        simp [handleEvent, hc]] at h ⊢
      exact congrArg HandlerState.last_status (emitIfNew_none st _ h)
    · simp [handleEvent, Bool.eq_false_iff.2 hc]
  | toolCallEv name cid =>
    cases cid with
    | some callId =>
      have h2 := emitIfNew_none
        { st with tool_calls_tracked := (callId, name) :: st.tool_calls_tracked } _ h
      show (emitIfNew { st with tool_calls_tracked := (callId, name) :: st.tool_calls_tracked }
          ("Executing: " ++ name ++ "...")).1.last_status = st.last_status
      rw [h2]
    | none => exact congrArg HandlerState.last_status (emitIfNew_none st _ h)
  | toolResultEv cid => simp [handleEvent]
  | finalResult => exact congrArg HandlerState.last_status (emitIfNew_none st _ h)

theorem runHandler_spec (events : List StreamEvent) :
    ∀ st : HandlerState,
      List.Chain' (fun a b : String => a ≠ b) (runHandler st events).2 ∧
        ∀ s, (runHandler st events).2.head? = some s → s ≠ st.last_status := by
  induction events with
  | nil =>
    intro st
    refine ⟨by simp [runHandler], ?_⟩
    intro s h
    simp [runHandler] at h
  | cons e es ih =>
    intro st
    cases hstep : (handleEvent st e).2 with
    | none =>
      have hout : (runHandler st (e :: es)).2 = (runHandler (handleEvent st e).1 es).2 := by
        simp [runHandler, hstep]
      have hls := handleEvent_none st e hstep
      refine ⟨by rw [hout]; exact (ih (handleEvent st e).1).1, ?_⟩
      intro s hs
      rw [hout] at hs
      have := (ih (handleEvent st e).1).2 s hs
      rwa [hls] at this
    | some s0 =>
      have hout : (runHandler st (e :: es)).2 = s0 :: (runHandler (handleEvent st e).1 es).2 := by
        simp [runHandler, hstep]
      have hsome := handleEvent_some st e s0 hstep
      refine ⟨?_, ?_⟩
      · rw [hout, List.chain'_cons']
        refine ⟨?_, (ih (handleEvent st e).1).1⟩
        intro b hb
        have hbne := (ih (handleEvent st e).1).2 b (Option.mem_def.1 hb)
        rw [hsome.2] at hbne
        exact fun heq => hbne heq.symm
      · intro s hs
        rw [hout] at hs
        simp at hs
        rw [← hs]
        exact hsome.1

/-! ## Claims -/

/-- C1 counterexample: at N = 12 files and configured max 2, the code's
limit (`min(max_concurrent_reviews, max(3, N // 2))`, line 407-409) is 2,
while the claimed formula `max(3, min(configured_max, N / 2))` gives 3, so
the claim's formula does not describe the code. -/
theorem C1_concurrency_limit_cex :
    concurrency_limit 12 2 = 2 ∧ spec_concurrency_limit 12 2 = 3 ∧
      concurrency_limit 12 2 ≠ spec_concurrency_limit 12 2 := by
  decide

/-- C1 (amended): for N ≤ 5 the limit is N, otherwise it is
`min(configured_max, max(3, N / 2))`, which agrees with the claim's
`max(3, min(configured_max, N / 2))` whenever the configured max is at
least 3; and no interleaving of slot acquisitions and releases ever puts
more than K jobs past the slot-acquisition point. -/
theorem C1_concurrency_limit (n cmax : Nat) :
    (3 ≤ cmax → concurrency_limit n cmax = spec_concurrency_limit n cmax) ∧
      ∀ (ops : List SlotOp) (s : DispatchState),
        slotRun ops (initDispatch (concurrency_limit n cmax)) = some s →
        s.inFlight ≤ concurrency_limit n cmax := by
  constructor
  · intro h3
    unfold concurrency_limit spec_concurrency_limit
    by_cases hn : n ≤ 5
    · simp [hn]
    · simp [hn]
      omega
  · intro ops s h
    have hsum := slotRun_sum ops _ s h
    simp [initDispatch] at hsum
    omega

/-- Witness for C1 at N = 12, configured max 4: the two formulas agree and
a state reached by one acquisition has 1 ≤ 4 jobs in flight. -/
theorem C1_concurrency_limit_witness :
    concurrency_limit 12 4 = spec_concurrency_limit 12 4 ∧
      (⟨3, 1⟩ : DispatchState).inFlight ≤ concurrency_limit 12 4 :=
  ⟨(C1_concurrency_limit 12 4).1 (by decide),
    (C1_concurrency_limit 12 4).2 [SlotOp.acquire] ⟨3, 1⟩ (by decide)⟩

/-- C2: an attempt's error is retried exactly when its lowercase message
contains one of the five rate-limit markers and fewer than 3 attempts have
been made: a non-transient error at any reachable attempt propagates
immediately with exactly the attempts made so far, a transient error with
attempts remaining leads to a further attempt, and a transient error
persisting through all 3 attempts is re-raised as an ordinary failure. -/
theorem C2_retry_classification {R : Type} (f : Nat → Except String R) :
    (∀ e, f 0 = .error e → is_rate_limit e = false →
        run_agent_review_loop f = ⟨.failure e, [], 1⟩) ∧
    (∀ e0 e1, f 0 = .error e0 → is_rate_limit e0 = true →
        f 1 = .error e1 → is_rate_limit e1 = false →
        run_agent_review_loop f = ⟨.failure e1, [base_delay], 2⟩) ∧
    (∀ e0, f 0 = .error e0 → is_rate_limit e0 = true →
        2 ≤ (run_agent_review_loop f).attempts) ∧
    (∀ e0 e1, f 0 = .error e0 → is_rate_limit e0 = true →
        f 1 = .error e1 → is_rate_limit e1 = true →
        (run_agent_review_loop f).attempts = 3) ∧
    (∀ e0 e1 e2, f 0 = .error e0 → is_rate_limit e0 = true →
        f 1 = .error e1 → is_rate_limit e1 = true → f 2 = .error e2 →
        run_agent_review_loop f = ⟨.failure e2, [base_delay, base_delay * 2], 3⟩) := by
  refine ⟨?_, ?_, ?_, ?_, ?_⟩
  · intro e h0 hr0
    simp [run_agent_review_loop, max_retries, reviewLoopAux, h0, hr0]
  · intro e0 e1 h0 hr0 h1 hr1
    simp [run_agent_review_loop, max_retries, reviewLoopAux, h0, hr0, h1, hr1]
  · intro e0 h0 hr0
    cases hf1 : f 1 with
    | ok r =>
      simp [run_agent_review_loop, max_retries, reviewLoopAux, h0, hr0, hf1]
    | error e1 =>
      by_cases hr1 : is_rate_limit e1 = true
      · cases hf2 : f 2 with
        | ok r =>
          simp [run_agent_review_loop, max_retries, reviewLoopAux, h0, hr0, hf1, hr1, hf2]
        | error e2 =>
          simp [run_agent_review_loop, max_retries, reviewLoopAux, h0, hr0, hf1, hr1, hf2]
      · have hr1f : is_rate_limit e1 = false := by simpa using hr1
        simp [run_agent_review_loop, max_retries, reviewLoopAux, h0, hr0, hf1, hr1f]
  · intro e0 e1 h0 hr0 h1 hr1
    cases hf2 : f 2 with
    | ok r =>
      simp [run_agent_review_loop, max_retries, reviewLoopAux, h0, hr0, h1, hr1, hf2]
    | error e2 =>
      simp [run_agent_review_loop, max_retries, reviewLoopAux, h0, hr0, h1, hr1, hf2]
  · intro e0 e1 e2 h0 hr0 h1 hr1 h2
    simp [run_agent_review_loop, max_retries, reviewLoopAux, h0, hr0, h1, hr1, h2]

/-- Witness for C2: a non-transient message fails after one attempt; a
persistent 429 message exhausts 3 attempts with backoffs 5 and 10 and is
re-raised. -/
theorem C2_retry_classification_witness :
    run_agent_review_loop (R := Unit) (fun _ => .error "PermissionError: cannot read file") =
        ⟨.failure "PermissionError: cannot read file", [], 1⟩ ∧
      run_agent_review_loop (R := Unit) (fun _ => .error "RateLimitError: 429") =
        ⟨.failure "RateLimitError: 429", [base_delay, base_delay * 2], 3⟩ :=
  ⟨(C2_retry_classification _).1 _ rfl (by decide),
    (C2_retry_classification _).2.2.2.2 _ _ _ rfl (by decide) rfl (by decide) rfl⟩

/-- C3: the retry controller makes at most 3 attempts, and the delay slept
before 0-indexed retry `j` is `base_delay * 2 ^ j` (5, then 10). -/
theorem C3_backoff_schedule {R : Type} (f : Nat → Except String R) :
    (run_agent_review_loop f).attempts ≤ max_retries ∧
      ∀ j (hj : j < (run_agent_review_loop f).delays.length),
        (run_agent_review_loop f).delays.get ⟨j, hj⟩ = base_delay * 2 ^ j := by
  refine ⟨(reviewLoopAux_bounds f max_retries 0).1, ?_⟩
  intro j hj
  have h := (reviewLoopAux_bounds f max_retries 0).2 j hj
  simpa using h

/-- Witness for C3: a persistently failing transient job makes 3 ≤ 3
attempts and its second backoff delay is 5 * 2 = 10. -/
theorem C3_backoff_schedule_witness :
    (run_agent_review_loop (R := Unit) (fun _ => .error "429")).attempts ≤ max_retries ∧
      (run_agent_review_loop (R := Unit) (fun _ => .error "429")).delays.get
          ⟨1, by decide⟩ = base_delay * 2 ^ 1 :=
  ⟨(C3_backoff_schedule _).1, (C3_backoff_schedule _).2 1 (by decide)⟩

/-- C4: the result-collection loop returns exactly the `(file, result)`
pairs of the successful jobs, in the same relative order as the input file
list (the gathered items are indexed by submission order, so completion
order cannot affect the output). -/
theorem C4_result_ordering {F R : Type} (files : List F) (outcome : F → GatherOutcome R) :
    collectResults (files.map fun fp => (fp, outcome fp)) =
      files.filterMap fun fp =>
        match outcome fp with
        | .ok r => some (fp, r)
        | _ => none := by
  have h : collectResults (files.map fun fp => (fp, outcome fp)) =
      (files.map fun fp => (fp, outcome fp)).filterMap fun item =>
        match item.2 with
        | GatherOutcome.ok r => some (item.1, r)
        | _ => none := by
    simpa using collectResults_foldl (files.map fun fp => (fp, outcome fp)) []
  rw [h, List.filterMap_map]
  rfl

/-- C5 counterexample: a job concluded by cancellation leaves its debug
writer registered (`except asyncio.CancelledError: raise` at lines 202-204
re-raises without the pop performed on the other exit paths), so a lookup
of the job's key after conclusion is not absent. -/
theorem C5_registry_lifecycle_cex :
    (run_agent_review_registry (R := Unit) (fun _ => .cancelled)).outcome = .cancelled ∧
      (run_agent_review_registry (R := Unit) (fun _ => .cancelled)).registered = true ∧
      (run_agent_review_registry (R := Unit) (fun _ => .cancelled)).unregisters = 0 := by
  decide

/-- C5 (amended): the recorder is registered once at job start; on every
exit path other than cancellation (success, non-transient failure,
exhausted retries) it is unregistered exactly once and the final lookup is
absent; on the cancellation path nothing is unregistered and the entry
remains registered. -/
theorem C5_registry_lifecycle {R : Type} (f : Nat → AttemptResult R) :
    ((run_agent_review_registry f).outcome ≠ .cancelled →
        (run_agent_review_registry f).unregisters = 1 ∧
          (run_agent_review_registry f).registered = false) ∧
      ((run_agent_review_registry f).outcome = .cancelled →
        (run_agent_review_registry f).unregisters = 0 ∧
          (run_agent_review_registry f).registered = true) := by
  have h := regLoopAux_spec f max_retries 0 (by decide) rfl
  exact ⟨h.2, h.1⟩

/-- Witness for C5: a job that fails with a non-transient error is
unregistered exactly once and its key is absent afterwards. -/
theorem C5_registry_lifecycle_witness :
    (run_agent_review_registry (R := Unit) (fun _ => .err "boom")).unregisters = 1 ∧
      (run_agent_review_registry (R := Unit) (fun _ => .err "boom")).registered = false :=
  (C5_registry_lifecycle _).1 (by decide)

/-- C6: with caching enabled, a cache hit returns the stored result with
no agent invocation (hence no retry attempt, no router events and no new
tool-call audit entries) and no cache put; and a cache put happens only
after a fresh successful agent computation, whose result is returned. -/
theorem C6_cache_short_circuit {R : Type} :
    (∀ (inp : CacheInput R) (r : R), cacheEnabled inp = true → inp.cached = some r →
        reviewWithCache inp = ⟨.ok r, false, false⟩) ∧
      ∀ inp : CacheInput R, (reviewWithCache inp).cachePut = true →
        (reviewWithCache inp).agentInvoked = true ∧
          ∃ r, inp.agentOutcome = .ok r ∧ (reviewWithCache inp).result = .ok r := by
  constructor
  · intro inp r he hc
    simp [reviewWithCache, he, hc]
  · intro inp hput
    cases hcase : (if cacheEnabled inp then inp.cached else none) with
    | some r => simp [reviewWithCache, hcase] at hput
    | none =>
      cases hago : inp.agentOutcome with
      | ok r =>
        exact ⟨by simp [reviewWithCache, hcase, hago], r, rfl,
          by simp [reviewWithCache, hcase, hago]⟩
      | error e => simp [reviewWithCache, hcase, hago] at hput

/-- Witness for C6: a hit on the stored value 7 is returned without agent
invocation or put; a fresh successful computation of 9 is agent-invoked
and returned. -/
theorem C6_cache_short_circuit_witness :
    reviewWithCache (R := Nat) ⟨false, true, some 7, .error "unused"⟩ =
        ⟨.ok 7, false, false⟩ ∧
      ((reviewWithCache (R := Nat) ⟨false, true, none, .ok 9⟩).agentInvoked = true ∧
        ∃ r, (CacheInput.mk (R := Nat) false true none (.ok 9)).agentOutcome = .ok r ∧
          (reviewWithCache (R := Nat) ⟨false, true, none, .ok 9⟩).result = .ok r) :=
  ⟨C6_cache_short_circuit.1 _ 7 rfl rfl, C6_cache_short_circuit.2 _ rfl⟩

/-- C7: when no job raises the missing-provider-credentials configuration
error, each failed job is merely dropped and the batch returns the
successes in submission order; when some job does raise it, the whole
batch aborts with the distinguished exit signal. -/
theorem C7_batch_error_containment {F R : Type} (files : List F)
    (outcome : F → Except JobError R) :
    ((∀ fp ∈ files, handleJobOutcome (outcome fp) ≠ Handled.abort) →
        runBatch files outcome = .ok (files.filterMap fun fp =>
          match handleJobOutcome (outcome fp) with
          | .success r => some (fp, r)
          | _ => none)) ∧
      ((∃ fp ∈ files, handleJobOutcome (outcome fp) = Handled.abort) →
        runBatch files outcome = .error ()) := by
  induction files with
  | nil =>
    refine ⟨fun _ => rfl, ?_⟩
    rintro ⟨fp, hmem, _⟩
    simp at hmem
  | cons f fs ih =>
    constructor
    · intro hno
      have hf := hno f (List.mem_cons_self f fs)
      cases hh : handleJobOutcome (outcome f) with
      | abort => exact absurd hh hf
      | success r =>
        have hrec := ih.1 fun fp hm => hno fp (List.mem_cons_of_mem f hm)
        simp [runBatch, hh, hrec, List.filterMap_cons]
      | dropped =>
        have hrec := ih.1 fun fp hm => hno fp (List.mem_cons_of_mem f hm)
        simp [runBatch, hh, hrec, List.filterMap_cons]
    · rintro ⟨fp, hmem, habort⟩
      rcases List.mem_cons.1 hmem with heq | hmem2
      · subst heq
        simp [runBatch, habort]
      · have hrec := ih.2 ⟨fp, hmem2, habort⟩
        cases hh : handleJobOutcome (outcome f) with
        | abort => simp [runBatch, hh]
        | success r => simp [runBatch, hh, hrec]
        | dropped => simp [runBatch, hh, hrec]

/-- Witness for C7: a batch of files 1 (fails non-fatally) and 2
(succeeds) returns just file 2's pair; a batch whose job raises the
missing-credentials `RuntimeError` aborts. -/
theorem C7_batch_error_containment_witness :
    runBatch [1, 2] (fun fp =>
        if fp = 1 then (Except.error (JobError.otherError "x") : Except JobError Nat)
        else Except.ok 5) = .ok [(2, 5)] ∧
      runBatch [3] (fun _ =>
        (Except.error (JobError.runtimeError "No API keys configured") :
          Except JobError Nat)) = .error () := by
  constructor
  · exact ((C7_batch_error_containment [1, 2] _).1 (by decide)).trans (by rfl)
  · exact (C7_batch_error_containment [3] _).2 (by decide)

/-- C8 counterexample: after a truthy streamed partial result the task is
cancelled and the variable nulled (lines 89-91), so the attempt exits
without awaiting the task — on the success path, and equally on a
re-raise path where an error follows the truthy partial (e.g.
`get_output()` failing): the claimed "cancelled and awaited on every exit
path" fails on both. -/
theorem C8_spinner_cleanup_cex :
    attemptSpinner true true AttemptExit.success = ⟨true, true, false⟩ ∧
      attemptSpinner true true AttemptExit.errRaise = ⟨true, true, false⟩ := by
  decide

/-- C8 (amended): on every exit path a started spinner task is cancelled
before the attempt exits; it is awaited with the bounded timeout exactly
when no truthy streamed partial result was received before the exit —
once a truthy partial arrives, the task is cancelled mid-stream and the
variable nulled, so no subsequent exit path (success, retry, re-raise or
cancellation) awaits it; at most one task is started per attempt. -/
theorem C8_spinner_cleanup (enabled partialReceived : Bool) (x : AttemptExit) :
    (attemptSpinner enabled partialReceived x).started = true →
    (attemptSpinner enabled partialReceived x).cancelled = true ∧
      (attemptSpinner enabled partialReceived x).awaited = !partialReceived := by
  intro h
  cases enabled with
  | false => simp [attemptSpinner] at h
  | true =>
    cases partialReceived with
    | true => simp [attemptSpinner]
    | false =>
      cases x with
      | success => simp [attemptSpinner]
      | errRetry => simp [attemptSpinner]
      | errRaise => simp [attemptSpinner]
      | cancelledExit => simp [attemptSpinner]

/-- Witness for C8: on the retry-transition exit path with the spinner
enabled and no truthy partial received, the task is cancelled and
awaited. -/
theorem C8_spinner_cleanup_witness :
    (attemptSpinner true false AttemptExit.errRetry).cancelled = true ∧
      (attemptSpinner true false AttemptExit.errRetry).awaited = !false :=
  C8_spinner_cleanup true false AttemptExit.errRetry (by decide)

/-- C9: a derived status is emitted by the event router only if it differs
from the per-job `last_status`, which is then updated to the emitted
value; consequently the emitted status sequence of a job never repeats the
same string twice in immediate succession. -/
theorem C9_status_dedup :
    (∀ (st : HandlerState) (e : StreamEvent) (s : String),
        (handleEvent st e).2 = some s →
        s ≠ st.last_status ∧ (handleEvent st e).1.last_status = s) ∧
      ∀ events : List StreamEvent,
        List.Chain' (fun a b : String => a ≠ b) (runHandler initHandlerState events).2 :=
  ⟨handleEvent_some, fun events => (runHandler_spec events initHandlerState).1⟩

/-- Witness for C9: the final-result event emits "Finalizing review...",
which differs from the initial empty `last_status` and becomes the new
`last_status`; a repeated final-result event stream emits it once. -/
theorem C9_status_dedup_witness :
    ("Finalizing review..." ≠ initHandlerState.last_status ∧
        (handleEvent initHandlerState StreamEvent.finalResult).1.last_status =
          "Finalizing review...") ∧
      List.Chain' (fun a b : String => a ≠ b)
        (runHandler initHandlerState [StreamEvent.finalResult, StreamEvent.finalResult]).2 :=
  ⟨C9_status_dedup.1 initHandlerState .finalResult _ (by decide),
    C9_status_dedup.2 [StreamEvent.finalResult, StreamEvent.finalResult]⟩

/-- C10: the retry loop always terminates from within the loop — every
execution either returns a result or re-raises an error — so the trailing
`RuntimeError("Failed to get review result after retries")` after the
loop is unreachable. -/
theorem C10_loop_totality {R : Type} (f : Nat → Except String R) :
    (run_agent_review_loop f).outcome.terminatedInLoop = true :=
  reviewLoopAux_terminates f max_retries 0 (by decide) rfl

end Council
